import Mathlib

/-!
Shallow embedding of the Kalshi weather-trading repository: the position
sizing logic of `src/trading/trader.py` (`TradeExecutor.calculate_position_size`
and the decision block of `run_trading_loop`), the startup bankroll handling,
the per-instrument exception structure of the live loop, and the walk-forward
window generation and trade simulation of `src/backtesting/backtester.py`.
Python floats are modelled as rationals; timestamps as naturals.
-/

/-- config.py line 15: the minimum profitable edge (in cents) required to
place a trade. -/
def MINIMUM_EDGE_CENTS : ℚ := 7

/-- config.py line 18: the maximum fraction of the portfolio to risk on a
single trade. -/
def MAX_RISK_PER_TRADE : ℚ := 5 / 100

/-- Python `int(x)` conversion applied to a float: truncation toward zero. -/
def pyInt (q : ℚ) : ℤ := if 0 ≤ q then ⌊q⌋ else ⌈q⌉

/-- trader.py line 225: the hard-coded demo override
`minimum_edge_for_trading = 3` used inside `calculate_position_size` instead
of the configured `MINIMUM_EDGE_CENTS`. -/
def minimum_edge_for_trading : ℚ := 3

/-- trader.py line 237: the Kelly fraction
`(odds * probability - (1 - probability)) / odds` with `odds = 1.0`. -/
def kelly_fraction (probability : ℚ) : ℚ :=
  (1 * probability - (1 - probability)) / 1

/-- trader.py line 240: the risk limit applied to the Kelly fraction,
`max(0, min(kelly_fraction, maxRisk))`. -/
def clamped_kelly (maxRisk probability : ℚ) : ℚ :=
  max 0 (min (kelly_fraction probability) maxRisk)

/-- trader.py lines 210-252, `TradeExecutor.calculate_position_size`:
returns 0 when the edge is below the hard-coded 3-cent demo minimum,
otherwise sizes `portfolio_balance * clamped_kelly / 100` contracts
(truncated), bumped to a demo minimum of 10 contracts when that truncates
to zero while the edge still meets the demo minimum. -/
def calculate_position_size (portfolio_balance edge_cents probability : ℚ) : ℤ :=
  if edge_cents < minimum_edge_for_trading then 0
  else
    let kf := clamped_kelly MAX_RISK_PER_TRADE probability
    let position_value := portfolio_balance * kf
    let position_size := pyInt (position_value / 100)
    if position_size = 0 ∧ minimum_edge_for_trading ≤ edge_cents then 10
    else max 0 position_size

/-- backtester.py lines 148-149, `_simulate_trades` BUY branch: position
value is `capital * MAX_RISK_PER_TRADE` and the (fractional) contract count
is that value divided by `market_ask_price / 100`. -/
def backtest_buy_contracts (capital market_ask_price : ℚ) : ℚ :=
  (capital * MAX_RISK_PER_TRADE) / (market_ask_price / 100)

/-- backtester.py lines 160-161, `_simulate_trades` SELL branch: the
(fractional) contract count is `capital * MAX_RISK_PER_TRADE` divided by
`(100 - market_bid_price) / 100`. -/
def backtest_sell_contracts (capital market_bid_price : ℚ) : ℚ :=
  (capital * MAX_RISK_PER_TRADE) / ((100 - market_bid_price) / 100)

/-- C1: the claim says the backtester and the live loop produce identical
contract counts on identical inputs because both call one shared decision
engine. The code duplicates the sizing logic with different formulas: at
fair value 70, market price 60 (edge 10), win probability 0.7 and bankroll
100000 cents, the live path sizes 50 contracts via the clamped Kelly
fraction while the backtest path sizes 25000/3 fractional contracts,
ignoring the win probability entirely. -/
theorem backtest_live_sizing_diverge :
    calculate_position_size 100000 (70 - 60) (7 / 10) = 50 ∧
    backtest_buy_contracts 100000 60 = 25000 / 3 ∧
    ((calculate_position_size 100000 (70 - 60) (7 / 10) : ℚ) ≠
      backtest_buy_contracts 100000 60) := by
  have h1 : calculate_position_size 100000 (70 - 60) (7 / 10) = 50 := by
    norm_num [calculate_position_size, clamped_kelly, kelly_fraction,
      minimum_edge_for_trading, MAX_RISK_PER_TRADE, pyInt]
  have h2 : backtest_buy_contracts 100000 60 = 25000 / 3 := by
    norm_num [backtest_buy_contracts, MAX_RISK_PER_TRADE]
  refine ⟨h1, h2, ?_⟩
  rw [h1, h2]
  norm_num

/-- C2: the claim says `calculate_position_size` returns 0 whenever
`edge_cents < MINIMUM_EDGE_CENTS = 7`. The code instead compares against a
hard-coded demo minimum of 3 cents: at edge 5 (below 7), probability 0.7
and balance 1000000 cents it returns 500 contracts. -/
theorem position_size_ignores_minimum_edge_cents :
    (5 : ℚ) < MINIMUM_EDGE_CENTS ∧
    calculate_position_size 1000000 5 (7 / 10) = 500 := by
  constructor
  · norm_num [MINIMUM_EDGE_CENTS]
  · norm_num [calculate_position_size, clamped_kelly, kelly_fraction,
      minimum_edge_for_trading, MAX_RISK_PER_TRADE, pyInt]

/-- C3: the clamped Kelly fraction is never negative and never exceeds the
risk ceiling, for every win probability in `[0, 1]` and every nonnegative
ceiling (the code instantiates the ceiling at `MAX_RISK_PER_TRADE`). -/
theorem clamped_kelly_within_risk_ceiling (maxRisk probability : ℚ)
    (hp0 : 0 ≤ probability) (hp1 : probability ≤ 1) (hm : 0 ≤ maxRisk) :
    0 ≤ clamped_kelly maxRisk probability ∧
    clamped_kelly maxRisk probability ≤ maxRisk :=
  ⟨le_max_left 0 _, max_le hm (min_le_right _ _)⟩

/-- Witness for C3 at probability 1 and the configured ceiling. -/
theorem clamped_kelly_within_risk_ceiling_witness :
    (0 : ℚ) ≤ 1 ∧ (1 : ℚ) ≤ 1 ∧ (0 : ℚ) ≤ MAX_RISK_PER_TRADE ∧
    (0 ≤ clamped_kelly MAX_RISK_PER_TRADE 1 ∧
      clamped_kelly MAX_RISK_PER_TRADE 1 ≤ MAX_RISK_PER_TRADE) :=
  ⟨by norm_num, le_refl 1, by norm_num [MAX_RISK_PER_TRADE],
    clamped_kelly_within_risk_ceiling MAX_RISK_PER_TRADE 1 (by norm_num)
      (le_refl 1) (by norm_num [MAX_RISK_PER_TRADE])⟩

/-- C4: the claim says that at win probability 0.5 the Kelly fraction is 0
and the contract count is 0 regardless of edge. The Kelly fraction is
indeed 0, but the demo minimum-lot override returns 10 contracts whenever
the edge meets the 3-cent demo minimum: at edge 10, probability 0.5 and
balance 1000000 the code returns 10, not 0. -/
theorem half_probability_trades_demo_minimum :
    kelly_fraction (1 / 2) = 0 ∧
    calculate_position_size 1000000 10 (1 / 2) = 10 := by
  constructor
  · norm_num [kelly_fraction]
  · norm_num [calculate_position_size, clamped_kelly, kelly_fraction,
      minimum_edge_for_trading, MAX_RISK_PER_TRADE, pyInt]

/-- Market data returned by the venue for one ticker (trader.py lines
109-128): the `active` flag and the optional price fields. The code reads
only `active`, `yes_bid` and `no_bid`; the ask fields are present in the
response but never read by the loop. -/
structure MarketInfo where
  active : Bool
  yes_bid : Option ℚ
  no_bid : Option ℚ
  yes_ask : Option ℚ
  no_ask : Option ℚ
deriving DecidableEq

/-- Outcome of the decision block for one instrument: skipped (inactive
market, `continue`), no trade (insufficient edge), or a trade on one side
with a contract count and a limit price. -/
inductive LiveAction where
  | skipped : LiveAction
  | noTrade : LiveAction
  | trade (isYes : Bool) (count : ℤ) (price : ℚ) : LiveAction
deriving DecidableEq

/-- trader.py lines 122-173, the per-instrument decision block of
`run_trading_loop`: skip inactive markets; read `yes_bid` (default 0) and
`no_bid` (default 100); compute `yes_edge = fair_value - yes_price` and
`no_edge = (100 - fair_value) - no_price`; trade YES when
`yes_edge >= 3`, else NO when `no_edge >= 3`, else no trade, bumping a
zero position size to the demo minimum of 10 contracts. -/
def live_decide (fair_value probability portfolio_balance : ℚ)
    (info : MarketInfo) : LiveAction :=
  if info.active = false then LiveAction.skipped
  else
    let yes_price := info.yes_bid.getD 0
    let no_price := info.no_bid.getD 100
    let yes_edge := fair_value - yes_price
    let no_edge := (100 - fair_value) - no_price
    if 3 ≤ yes_edge then
      let ps0 := calculate_position_size portfolio_balance yes_edge probability
      let ps := if ps0 = 0 ∧ 3 ≤ yes_edge then 10 else ps0
      if 0 < ps then LiveAction.trade true ps yes_price else LiveAction.noTrade
    else if 3 ≤ no_edge then
      let ps0 := calculate_position_size portfolio_balance no_edge (1 - probability)
      let ps := if ps0 = 0 ∧ 3 ≤ no_edge then 10 else ps0
      if 0 < ps then LiveAction.trade false ps no_price else LiveAction.noTrade
    else LiveAction.noTrade

lemma calculate_position_size_nonneg (b e p : ℚ) :
    0 ≤ calculate_position_size b e p := by
  simp only [calculate_position_size]
  split
  · exact le_refl 0
  · split
    · norm_num
    · exact le_max_left 0 _

lemma bumped_position_size_pos (b e p : ℚ) (he : 3 ≤ e) :
    0 < (if calculate_position_size b e p = 0 ∧ 3 ≤ e then 10
         else calculate_position_size b e p) := by
  by_cases h0 : calculate_position_size b e p = 0
  · simp [h0, he]
  · have h1 : 0 < calculate_position_size b e p :=
      lt_of_le_of_ne (calculate_position_size_nonneg b e p) (Ne.symm h0)
    simp [h0, h1]

/-- C5 counterexample: the claim computes edges against the ask prices and
requires `MINIMUM_EDGE_CENTS`. At fair value 50 with `yes_ask = 49`,
`no_ask = 55`, `yes_bid = 45`, `no_bid = 100`, both ask-side edges are
below `MINIMUM_EDGE_CENTS = 7`, so the claim predicts no trade; the code
computes the YES edge against the bid (50 - 45 = 5 ≥ 3) and places a YES
trade of 10 contracts at 45 cents. -/
theorem live_edges_not_vs_ask_counterexample :
    ((50 : ℚ) - (MarketInfo.mk true (some 45) (some 100) (some 49)
        (some 55)).yes_ask.getD 0 < MINIMUM_EDGE_CENTS) ∧
    (((100 : ℚ) - 50) - (MarketInfo.mk true (some 45) (some 100) (some 49)
        (some 55)).no_ask.getD 0 < MINIMUM_EDGE_CENTS) ∧
    live_decide 50 (1 / 2) 1000000
        (MarketInfo.mk true (some 45) (some 100) (some 49) (some 55)) =
      LiveAction.trade true 10 45 ∧
    LiveAction.trade true 10 45 ≠ LiveAction.noTrade := by
  refine ⟨by norm_num [MINIMUM_EDGE_CENTS], by norm_num [MINIMUM_EDGE_CENTS], ?_, by simp⟩
  have hps : calculate_position_size 1000000 5 (1 / 2) = 10 := by
    norm_num [calculate_position_size, clamped_kelly, kelly_fraction,
      minimum_edge_for_trading, MAX_RISK_PER_TRADE, pyInt]
  simp only [live_decide, Option.getD]
  norm_num [hps]

/-- C5 amended: in the live loop the YES edge is `fair_value - yes_bid`
(default 0 when the field is missing) and the NO edge is
`(100 - fair_value) - no_bid` (default 100); the threshold is the
hard-coded 3 cents, not `MINIMUM_EDGE_CENTS`; for an active market no
trade is placed exactly when neither bid-side edge reaches 3 cents. -/
theorem live_noTrade_iff_bid_edges_below_three
    (fair probability balance : ℚ) (info : MarketInfo)
    (hact : info.active = true) :
    (live_decide fair probability balance info = LiveAction.noTrade ↔
      (fair - info.yes_bid.getD 0 < 3 ∧
        (100 - fair) - info.no_bid.getD 100 < 3)) := by
  simp only [live_decide, hact]
  by_cases hy : 3 ≤ fair - info.yes_bid.getD 0
  · have hpos := bumped_position_size_pos balance
      (fair - info.yes_bid.getD 0) probability hy
    simp only [if_pos hy, if_pos hpos]
    constructor
    · intro h
      exact absurd h (by simp)
    · rintro ⟨h1, h2⟩
      exact absurd hy (not_le.mpr h1)
  · by_cases hn : 3 ≤ (100 - fair) - info.no_bid.getD 100
    · have hpos := bumped_position_size_pos balance
        ((100 - fair) - info.no_bid.getD 100) (1 - probability) hn
      simp only [if_neg hy, if_pos hn, if_pos hpos]
      constructor
      · intro h
        exact absurd h (by simp)
      · rintro ⟨h1, h2⟩
        exact absurd hn (not_le.mpr h2)
    · simp only [if_neg hy, if_neg hn]
      simp [not_le.mp hy, not_le.mp hn]

/-- Witness for C5 amended: fair value 50 against bids of 48 on both
sides gives edges of 2 on each side, below 3, so no trade. -/
theorem live_noTrade_iff_bid_edges_below_three_witness :
    (MarketInfo.mk true (some 48) (some 48) none none).active = true ∧
    (live_decide 50 (1 / 2) 1000000
        (MarketInfo.mk true (some 48) (some 48) none none) =
          LiveAction.noTrade ↔
      ((50 : ℚ) - (MarketInfo.mk true (some 48) (some 48) none
          none).yes_bid.getD 0 < 3 ∧
        ((100 : ℚ) - 50) - (MarketInfo.mk true (some 48) (some 48) none
          none).no_bid.getD 100 < 3)) :=
  ⟨rfl, live_noTrade_iff_bid_edges_below_three 50 (1 / 2) 1000000
    (MarketInfo.mk true (some 48) (some 48) none none) rfl⟩

/-- C10: a quote that is present and active but missing both bid fields is
not skipped: the YES price defaults to 0 so the YES edge equals the full
fair value, and whenever the fair value reaches the 3-cent demo threshold
a YES trade with a positive contract count is submitted at price 0. -/
theorem missing_bids_default_and_trade (fair probability balance : ℚ)
    (h : 3 ≤ fair) :
    fair - (MarketInfo.mk true none none none none).yes_bid.getD 0 = fair ∧
    ∃ c : ℤ, 0 < c ∧
      live_decide fair probability balance
          (MarketInfo.mk true none none none none) =
        LiveAction.trade true c 0 := by
  have hpos := bumped_position_size_pos balance fair probability h
  refine ⟨by simp, _, hpos, ?_⟩
  simp only [live_decide]
  norm_num [h]
  intro hle
  exfalso
  have hgt : 0 < (if calculate_position_size balance fair probability = 0
      then 10 else calculate_position_size balance fair probability) := by
    by_cases h0 : calculate_position_size balance fair probability = 0
    · simp [h0]
    · have h1 : 0 < calculate_position_size balance fair probability :=
        lt_of_le_of_ne (calculate_position_size_nonneg balance fair probability)
          (Ne.symm h0)
      simp [h0, h1]
  exact absurd hle (not_le.mpr hgt)

/-- Witness for C10 at fair value 50. -/
theorem missing_bids_default_and_trade_witness :
    (3 : ℚ) ≤ 50 ∧
    ((50 : ℚ) - (MarketInfo.mk true none none none none).yes_bid.getD 0 = 50 ∧
      ∃ c : ℤ, 0 < c ∧
        live_decide 50 (1 / 2) 1000000
            (MarketInfo.mk true none none none none) =
          LiveAction.trade true c 0) :=
  ⟨by norm_num, missing_bids_default_and_trade 50 (1 / 2) 1000000 (by norm_num)⟩

/-- trader.py lines 31-40, the startup of `run_trading_loop`: the result
of `client.get_balance()` is either an exception (`Except.error`, the
whole block is caught and the function returns without starting the loop)
or a response dictionary whose optional balance field is modelled as an
`Option`. On success the balance is read with
`balance_response.get('balance', 1000000)`. The returned value is the
bankroll the loop starts with, or `none` when the loop does not start. -/
def startup_bankroll : Except Unit (Option ℚ) → Option ℚ
  | Except.error _ => none
  | Except.ok response => some (response.getD 1000000)

/-- C6 counterexample: the claim says no default bankroll is silently
substituted for a missing balance. When `get_balance` succeeds but the
response lacks the balance field, the loop starts with the default of
1000000 cents, a bankroll that did not come from the response. -/
theorem missing_balance_defaulted_counterexample :
    ¬ (∀ (r : Option ℚ) (v : ℚ),
        startup_bankroll (Except.ok r) = some v → r = some v) := by
  intro hcl
  have h := hcl none 1000000 rfl
  simp at h

/-- C6 amended: an exception from `get_balance` is fatal for the run (the
loop does not start), and a balance present in the response is used as is;
but a successful response missing the balance field silently substitutes
the default bankroll of 1000000 cents. -/
theorem startup_balance_behavior (e : Unit) (b : ℚ) :
    startup_bankroll (Except.error e) = none ∧
    startup_bankroll (Except.ok (some b)) = some b ∧
    startup_bankroll (Except.ok none) = some 1000000 :=
  ⟨rfl, rfl, rfl⟩

/-- Stages of one instrument (market) inside the per-iteration `for` loop
of `run_trading_loop` at which an exception can be raised: weather-data
fetch (trader.py lines 67-74), feature generation (lines 80-81), model
prediction (lines 84-98), market-quote fetch (line 109) and order
submission (lines 156-171). -/
inductive Stage where
  | weather : Stage
  | features : Stage
  | predict : Stage
  | quote : Stage
  | submit : Stage
deriving DecidableEq

/-- Which stages lie inside the inner `try` block (trader.py lines
108-177): only the market-quote fetch and order submission. The weather
fetch, feature generation and prediction (lines 66-105) run before that
`try` and are protected by no per-instrument handler. -/
def caught_locally : Stage → Bool
  | Stage.quote => true
  | Stage.submit => true
  | _ => false

/-- Processing of one instrument; the input is the stage at which an
exception is raised, if any. `Except.ok true` means the instrument was
processed to completion, `Except.ok false` means the exception was caught
by the inner handler and the loop continued; `Except.error` means the
exception escapes the per-instrument body into the outer `while` handler. -/
def process_instrument : Option Stage → Except Unit Bool
  | none => Except.ok true
  | some s => if caught_locally s then Except.ok false else Except.error ()

/-- The `for market in markets` loop of one iteration (trader.py lines
62-177): instruments are processed in order; the first escaping exception
ends the iteration (the outer handler at lines 187-190 catches it), and
the remaining instruments are not processed. Returns the per-instrument
completion flags of the instruments reached and whether the iteration was
aborted. -/
def run_iteration : List (Option Stage) → List Bool × Bool
  | [] => ([], false)
  | r :: rest =>
    match process_instrument r with
    | Except.error _ => ([], true)
    | Except.ok b =>
      let p := run_iteration rest
      (b :: p.1, p.2)

/-- C7 counterexample: the claim says an exception in any of the listed
stages (including prediction) is caught and the loop proceeds to the next
instrument. An exception raised during prediction on the first of two
instruments aborts the iteration and the second instrument is never
reached. -/
theorem early_stage_exception_aborts_iteration :
    (run_iteration [some Stage.predict, none]).2 = true ∧
    (run_iteration [some Stage.predict, none]).1 = [] := by
  constructor
  · rfl
  · rfl

/-- C7 amended: an iteration survives (is not aborted) exactly when every
raised exception occurs at a locally-caught stage (market-quote fetch or
order submission); in that case every instrument in the list is reached.
Exceptions at the weather, feature or prediction stages escape and abort
the remaining instruments. -/
theorem iteration_survives_iff_failures_caught_locally
    (rs : List (Option Stage)) :
    ((run_iteration rs).2 = false ↔
      ∀ r ∈ rs, ∀ s, r = some s → caught_locally s = true) ∧
    ((run_iteration rs).2 = false →
      (run_iteration rs).1.length = rs.length) := by
  induction rs with
  | nil => simp [run_iteration]
  | cons r rest ih =>
    cases r with
    | none =>
      simp only [run_iteration, process_instrument]
      constructor
      · rw [ih.1]
        simp
      · intro hf
        simp only [List.length_cons]
        rw [ih.2 hf]
    | some s =>
      by_cases hc : caught_locally s = true
      · simp only [run_iteration, process_instrument, hc, if_pos]
        constructor
        · rw [ih.1]
          simp [hc]
        · intro hf
          simp only [List.length_cons]
          rw [ih.2 hf]
      · simp only [run_iteration, process_instrument, hc, if_neg]
        simp only [Bool.not_eq_true] at hc
        simp [hc]

/-- One test row fed to `_simulate_trades` (backtester.py lines 107-114):
the model probability of YES for that date (`prob[1]`), the actual binary
outcome, and the sample of `np.random.normal(0, 1)` used to perturb the
market price, injected explicitly to make the simulation a function of its
inputs. -/
structure SimRow where
  prob_yes : ℚ
  actual : Bool
  noise : ℚ
deriving DecidableEq

/-- One entry of the backtester trade log (backtester.py lines 172-176):
the capital after the trade and the realized profit or loss. -/
structure TradeLogEntry where
  capital : ℚ
  pnl : ℚ
deriving DecidableEq

/-- backtester.py line 122: the spread actually used inside the loop (the
value 4 assigned at line 112 is overwritten before first use). -/
def ASSUMED_SPREAD_CENTS : ℚ := 2

/-- backtester.py line 134: the reduced minimum edge used by the
simulation in place of the configured `MINIMUM_EDGE_CENTS`. -/
def MINIMUM_EDGE_FOR_TESTING : ℚ := 1 / 10

/-- backtester.py lines 114-176, the body of the `for` loop of
`_simulate_trades` for one row: synthesize the market price from the
prediction plus noise and half the spread on each side, compute the buy
and sell edges, and on a qualifying edge risk `capital * MAX_RISK_PER_TRADE`
at the synthetic price, settling the profit or loss against the actual
outcome. Returns the new capital and the appended log entry, if any. -/
def simulate_row (capital : ℚ) (row : SimRow) : ℚ × Option TradeLogEntry :=
  let predicted_prob_yes := row.prob_yes * 100
  let market_prob_yes := predicted_prob_yes + row.noise
  let market_ask_price := market_prob_yes + ASSUMED_SPREAD_CENTS / 2
  let market_bid_price := market_prob_yes - ASSUMED_SPREAD_CENTS / 2
  let our_fair_value_cents := predicted_prob_yes
  let edge_to_buy := our_fair_value_cents - market_ask_price
  let edge_to_sell := market_bid_price - our_fair_value_cents
  if MINIMUM_EDGE_FOR_TESTING ≤ edge_to_buy then
    let contracts_bought := backtest_buy_contracts capital market_ask_price
    let pnl := if row.actual then contracts_bought * (1 - market_ask_price / 100)
      else -(contracts_bought * (market_ask_price / 100))
    (capital + pnl, some ⟨capital + pnl, pnl⟩)
  else if MINIMUM_EDGE_FOR_TESTING ≤ edge_to_sell then
    let contracts_sold := backtest_sell_contracts capital market_bid_price
    let pnl := if row.actual = false then
        contracts_sold * (1 - (100 - market_bid_price) / 100)
      else -(contracts_sold * ((100 - market_bid_price) / 100))
    (capital + pnl, some ⟨capital + pnl, pnl⟩)
  else (capital, none)

/-- backtester.py lines 107-176, `_simulate_trades`: fold `simulate_row`
over the rows in order, threading the capital and collecting the trade
log entries that were appended. -/
def simulate_trades (capital : ℚ) : List SimRow → ℚ × List TradeLogEntry
  | [] => (capital, [])
  | row :: rest =>
    match simulate_row capital row with
    | (c, none) => simulate_trades c rest
    | (c, some e) =>
      let p := simulate_trades c rest
      (p.1, e :: p.2)

/-- A trade log is consistent with the running capital: the first entry
records `initial + its pnl`, and every later entry records the previous
entry's capital plus its own pnl. -/
def ledger_consistent (initial : ℚ) : List TradeLogEntry → Prop
  | [] => True
  | e :: rest => e.capital = initial + e.pnl ∧ ledger_consistent e.capital rest

lemma simulate_row_capital (capital : ℚ) (row : SimRow) :
    (simulate_row capital row).2 = none ∧ (simulate_row capital row).1 = capital ∨
    ∃ e, (simulate_row capital row).2 = some e ∧
      e.capital = capital + e.pnl ∧ (simulate_row capital row).1 = e.capital := by
  simp only [simulate_row]
  split
  · right
    exact ⟨_, rfl, rfl, rfl⟩
  · split
    · right
      exact ⟨_, rfl, rfl, rfl⟩
    · left
      exact ⟨rfl, rfl⟩

/-- C9: every trade log produced by `_simulate_trades` is consistent with
realized profit and loss: the first entry's capital is the starting
capital plus that entry's pnl, and each subsequent entry's capital is the
previous entry's capital plus its own pnl. -/
theorem simulate_trades_ledger_consistent (capital : ℚ) (rows : List SimRow) :
    ledger_consistent capital (simulate_trades capital rows).2 := by
  induction rows generalizing capital with
  | nil => trivial
  | cons row rest ih =>
    rcases simulate_row_capital capital row with ⟨h2, h1⟩ | ⟨e, h2, he, h1⟩
    · have : simulate_trades capital (row :: rest) =
          simulate_trades (simulate_row capital row).1 rest := by
        simp only [simulate_trades]
        rw [show simulate_row capital row =
          ((simulate_row capital row).1, none) from by
            rw [← h2]]
      rw [this, h1]
      exact ih capital
    · have : simulate_trades capital (row :: rest) =
          ((simulate_trades (simulate_row capital row).1 rest).1,
            e :: (simulate_trades (simulate_row capital row).1 rest).2) := by
        simp only [simulate_trades]
        rw [show simulate_row capital row =
          ((simulate_row capital row).1, some e) from by
            rw [← h2]]
      rw [this]
      exact ⟨by rw [← he], by rw [h1]; exact ih e.capital⟩

/-- A walk-forward window (backtester.py lines 54-62): the end of the
training range and the end of the test range; the test range selected is
`train_end < date ≤ test_end`. -/
structure WalkWindow where
  train_end : ℕ
  test_end : ℕ
deriving DecidableEq

/-- The maximum timestamp of the dataset, `features_df['date'].max()`. -/
def max_date (dates : List ℕ) : ℕ := dates.foldr max 0

/-- Emptiness test of the selected test window (backtester.py lines
62-66): some date satisfies `train_end < date ≤ test_end`. -/
def has_test_row (dates : List ℕ) (train_end test_end : ℕ) : Bool :=
  dates.any (fun d => decide (train_end < d) && decide (d ≤ test_end))

/-- backtester.py lines 57-84, the `while` loop of
`run_walk_forward_backtest`: while `test_end ≤ maxDate`, select the test
rows in `(train_end, test_end]`; if none, break; otherwise consume the
window and advance both boundaries by the test-window length. The Python
loop does not terminate for a zero test-window length, so the guard also
carries the configured bound `0 < testW`; the spec requires
`test_window_length > 0` and the code uses 90 days. -/
def gen_windows (dates : List ℕ) (maxDate train_end test_end testW : ℕ) :
    List WalkWindow :=
  if h : 0 < testW ∧ test_end ≤ maxDate then
    if has_test_row dates train_end test_end then
      WalkWindow.mk train_end test_end ::
        gen_windows dates maxDate (train_end + testW) (test_end + testW) testW
    else []
  else []
termination_by maxDate + 1 - test_end
decreasing_by omega

/-- backtester.py lines 52-56: the first window is anchored at the
earliest timestamp, with `train_end = start + train_window` and
`test_end = train_end + test_window`. -/
def walk_forward_windows (dates : List ℕ)
    (start_date train_window test_window : ℕ) : List WalkWindow :=
  gen_windows dates (max_date dates) (start_date + train_window)
    (start_date + train_window + test_window) test_window

lemma gen_windows_spec (dates : List ℕ) (maxDate train_end test_end testW : ℕ) :
    test_end = train_end + testW →
    ((∀ w ∈ gen_windows dates maxDate train_end test_end testW,
        w.test_end = w.train_end + testW ∧ w.train_end < w.test_end ∧
          w.test_end ≤ maxDate) ∧
      List.Chain' (fun a b => b.train_end = a.test_end)
        (gen_windows dates maxDate train_end test_end testW) ∧
      (∀ w ∈ (gen_windows dates maxDate train_end test_end testW).head?,
          w.train_end = train_end)) := by
  induction train_end, test_end, testW using gen_windows.induct dates maxDate with
  | case1 te ten w h hrow ih =>
    intro hlen
    have hunf : gen_windows dates maxDate te ten w =
        WalkWindow.mk te ten ::
          gen_windows dates maxDate (te + w) (ten + w) w := by
      rw [gen_windows, dif_pos h, if_pos hrow]
    have ih2 := ih (by omega)
    rw [hunf]
    refine ⟨?_, ?_, ?_⟩
    · intro win hwin
      rcases List.mem_cons.mp hwin with rfl | hwin2
      · exact ⟨hlen, by show te < ten; omega, h.2⟩
      · exact ih2.1 win hwin2
    · rw [List.chain'_cons']
      refine ⟨?_, ih2.2.1⟩
      intro b hb
      have hb2 := ih2.2.2 b hb
      show b.train_end = ten
      omega
    · intro win hwin
      simp only [List.head?_cons, Option.mem_def, Option.some.injEq] at hwin
      rw [← hwin]
  | case2 te ten w h hrow =>
    intro hlen
    have hunf : gen_windows dates maxDate te ten w = [] := by
      rw [gen_windows, dif_pos h, if_neg hrow]
    rw [hunf]
    simp
  | case3 te ten w h =>
    intro hlen
    have hunf : gen_windows dates maxDate te ten w = [] := by
      rw [gen_windows, dif_neg h]
    rw [hunf]
    simp

lemma chained_head_le_last :
    ∀ ws : List WalkWindow,
      List.Chain' (fun a b => b.train_end = a.test_end) ws →
      (∀ w ∈ ws, w.train_end < w.test_end) →
      ∀ w0 ∈ ws.head?, ∀ wl ∈ ws.getLast?, w0.train_end ≤ wl.test_end
  | [], _, _ => by simp
  | [w], _, hmono => by
    simp only [List.head?_cons, List.getLast?_singleton, Option.mem_def,
      Option.some.injEq]
    rintro w0 rfl wl rfl
    exact le_of_lt (hmono w (List.mem_cons_self w []))
  | w1 :: w2 :: rest, hch, hmono => by
    have h12 : w2.train_end = w1.test_end := (List.chain'_cons.mp hch).1
    have ih := chained_head_le_last (w2 :: rest) (List.chain'_cons.mp hch).2
      (fun w hw => hmono w (List.mem_cons_of_mem w1 hw))
    have hm1 : w1.train_end < w1.test_end :=
      hmono w1 (List.mem_cons_self w1 (w2 :: rest))
    simp only [List.head?_cons, List.getLast?_cons_cons, Option.mem_def,
      Option.some.injEq] at ih ⊢
    rintro w0 rfl wl hwl
    have h2 := ih w2 rfl wl hwl
    omega

lemma chained_union :
    ∀ ws : List WalkWindow,
      List.Chain' (fun a b => b.train_end = a.test_end) ws →
      (∀ w ∈ ws, w.train_end < w.test_end) →
      ∀ t : ℕ, ((∃ w ∈ ws, w.train_end < t ∧ t ≤ w.test_end) ↔
        (∃ w0 ∈ ws.head?, ∃ wl ∈ ws.getLast?,
          w0.train_end < t ∧ t ≤ wl.test_end))
  | [], _, _, _ => by simp
  | [w], _, _, t => by simp
  | w1 :: w2 :: rest, hch, hmono, t => by
    have h12 : w2.train_end = w1.test_end := (List.chain'_cons.mp hch).1
    have hmt := fun w hw => hmono w (List.mem_cons_of_mem w1 hw)
    have ih := chained_union (w2 :: rest) (List.chain'_cons.mp hch).2 hmt t
    have ihle := chained_head_le_last (w2 :: rest) (List.chain'_cons.mp hch).2 hmt
    have hm1 : w1.train_end < w1.test_end :=
      hmono w1 (List.mem_cons_self w1 (w2 :: rest))
    obtain ⟨wl, hwl⟩ : ∃ wl, (w2 :: rest).getLast? = some wl :=
      ⟨(w2 :: rest).getLast (List.cons_ne_nil w2 rest),
        List.getLast?_eq_getLast (w2 :: rest) (List.cons_ne_nil w2 rest)⟩
    have hle : w2.train_end ≤ wl.test_end := by
      simp only [List.head?_cons, Option.mem_def, Option.some.injEq] at ihle
      exact ihle w2 rfl wl hwl
    simp only [List.getLast?_cons_cons] at ih ⊢
    rw [hwl] at ih ⊢
    simp only [List.head?_cons, Option.mem_def, Option.some.injEq,
      List.mem_cons, exists_eq_or_imp, exists_eq_left, exists_eq_left'] at ih ⊢
    rw [ih]
    omega

/-- C8: the walk-forward windows are contiguous and non-overlapping in
test ranges: each window's test interval is `(train_end, test_end]` of
length exactly the test-window size, successive windows advance both
boundaries by that size so the next test range begins where the previous
one ended, every generated window has `test_end ≤ max_date` (generation
stops once the next `test_end` exceeds the dataset maximum), and the union
of the test intervals covers exactly `(first train_end, last test_end]`
with no gaps. -/
theorem walk_forward_windows_contiguous_cover
    (dates : List ℕ) (start_date train_window test_window : ℕ) :
    (∀ w ∈ walk_forward_windows dates start_date train_window test_window,
        w.test_end = w.train_end + test_window ∧ w.train_end < w.test_end ∧
          w.test_end ≤ max_date dates) ∧
    List.Chain' (fun a b => b.train_end = a.test_end)
      (walk_forward_windows dates start_date train_window test_window) ∧
    (∀ t : ℕ,
      ((∃ w ∈ walk_forward_windows dates start_date train_window test_window,
          w.train_end < t ∧ t ≤ w.test_end) ↔
        (∃ w0 ∈ (walk_forward_windows dates start_date train_window
            test_window).head?,
          ∃ wl ∈ (walk_forward_windows dates start_date train_window
            test_window).getLast?,
          w0.train_end < t ∧ t ≤ wl.test_end))) := by
  have hspec := gen_windows_spec dates (max_date dates)
    (start_date + train_window) (start_date + train_window + test_window)
    test_window rfl
  exact ⟨hspec.1, hspec.2.1,
    fun t => chained_union _ hspec.2.1 (fun w hw => (hspec.1 w hw).2.1) t⟩

/-- Witness for C8 on the dataset with dates 1..6, train window 2 and test
window 2: the windows are `[(2,4], (4,6]]`; the first window satisfies the
length, nonemptiness and stop bounds, and the coverage equivalence holds
at `t = 5`. -/
theorem walk_forward_windows_contiguous_cover_witness :
    WalkWindow.mk 2 4 ∈ walk_forward_windows [1, 2, 3, 4, 5, 6] 0 2 2 ∧
    ((WalkWindow.mk 2 4).test_end = (WalkWindow.mk 2 4).train_end + 2 ∧
      (WalkWindow.mk 2 4).train_end < (WalkWindow.mk 2 4).test_end ∧
      (WalkWindow.mk 2 4).test_end ≤ max_date [1, 2, 3, 4, 5, 6]) ∧
    ((∃ w ∈ walk_forward_windows [1, 2, 3, 4, 5, 6] 0 2 2,
        w.train_end < 5 ∧ 5 ≤ w.test_end) ↔
      (∃ w0 ∈ (walk_forward_windows [1, 2, 3, 4, 5, 6] 0 2 2).head?,
        ∃ wl ∈ (walk_forward_windows [1, 2, 3, 4, 5, 6] 0 2 2).getLast?,
        w0.train_end < 5 ∧ 5 ≤ wl.test_end)) :=
  ⟨by simp [walk_forward_windows, gen_windows, has_test_row, max_date],
    (walk_forward_windows_contiguous_cover [1, 2, 3, 4, 5, 6] 0 2 2).1
      (WalkWindow.mk 2 4)
      (by simp [walk_forward_windows, gen_windows, has_test_row, max_date]),
    (walk_forward_windows_contiguous_cover [1, 2, 3, 4, 5, 6] 0 2 2).2.2 5⟩

/-- Witness for C7 amended: with a quote-stage failure on the first of two
instruments, the iteration is not aborted and both instruments are
reached. -/
theorem iteration_survives_iff_failures_caught_locally_witness :
    (run_iteration [some Stage.quote, none]).2 = false ∧
    (run_iteration [some Stage.quote, none]).1.length = 2 :=
  ⟨by decide,
    (iteration_survives_iff_failures_caught_locally
      [some Stage.quote, none]).2 (by decide)⟩
